import Mathlib

/-!
Load generator: `fetch` and `waitUntilReady` (tool/loadgen/fetch.go)

A shallow embedding of the two functions of `fetch.go` that carry logic.

* Durations are Go `time.Duration` values: signed 64-bit nanosecond counts.
  They are modelled as `Int` with explicit wrap-around (`wrap64`) wherever the
  source performs arithmetic that can overflow.
* The loop counter `i` of `waitUntilReady` is a Go `int`; it is modelled as a
  64-bit signed integer (the width of `int` on 64-bit platforms).
* Instants (`time.Time`) are modelled as `Int` nanoseconds on an unbounded
  time line: `t.Add(d)` is `t + d` and `t.After(u)` is `u < t`.
* The result channel returned by the attacker is modelled as the finite list
  of results it delivers before it is closed.
* The external metrics aggregate and the response dumper are parameters
  (`Lib`); a concrete instance is given further down for evaluation.
-/

namespace Loadgen

/-! ## Machine arithmetic -/

/-- Two's-complement wrap-around of an integer into the range of `int64`. -/
def wrap64 (z : Int) : Int :=
  (z + 9223372036854775808) % 18446744073709551616 - 9223372036854775808

/-- Go `x * y` on `int64` operands. -/
def mul64 (x y : Int) : Int := wrap64 (x * y)

/-- Go `x << n` for an `int64` left operand and a signed shift count:
a negative count is a run-time panic (`none`), a count of 64 or more
shifts every bit out. -/
def shl64 (x n : Int) : Option Int :=
  if n < 0 then none
  else if 64 ≤ n then some 0
  else some (wrap64 (x * 2 ^ n.toNat))

/-- Go `time.Millisecond`, in nanoseconds. -/
def Millisecond : Int := 1000000

/-- Go `time.Second`, in nanoseconds. -/
def Second : Int := 1000000000

/-- The constant `maxSleep = 10 * time.Second` of `waitUntilReady`. -/
def maxSleep : Int := 10 * Second

/-- The uncapped product `(1 << i) * 500 * time.Millisecond` of line 83,
evaluated left to right in `time.Duration` arithmetic (the untyped constants
`1` and `500` take the type `time.Duration` of the last factor). -/
def rawSleep (i : Int) : Option Int :=
  (shl64 1 i).map fun p => mul64 (mul64 p 500) Millisecond

/-- Lines 83-86: the product of line 83 followed by the cap of lines 84-86. -/
def backoff (i : Int) : Option Int :=
  (rawSleep i).map fun sleep => if sleep > maxSleep then maxSleep else sleep

/-! ## Data model -/

/-- The fields of a `vegeta.Result` that `fetch.go` reads: the status code
(a `uint16`), the response headers and the response body (bytes). -/
structure Result where
  Code : Nat
  Headers : List (String × List String)
  Body : List Nat
deriving DecidableEq, Repr

/-- The fields of the `http.Response` literal built at lines 40-47. -/
structure HttpResponse where
  ProtoMajor : Int
  ProtoMinor : Int
  StatusCode : Int
  Header : List (String × List String)
  Body : List Nat
  ContentLength : Int
deriving DecidableEq, Repr

/-- The external collaborators of `fetch.go`, taken as parameters: the
metrics aggregate `vegeta.Metrics` (its zero value, `Add`, `Close`, the
lookup `StatusCodes[key]`, the field `Success` and the field `Requests`) and
`httputil.DumpResponse` (returning the dumped bytes and an optional error). -/
structure Lib (M : Type) where
  zero : M
  Add : M → Result → M
  Close : M → M
  StatusCodes : M → String → Int
  Success : M → Rat
  Requests : M → Nat
  DumpResponse : HttpResponse → Bool → String × Option String

/-- The struct `FetchResult` of lines 16-20. -/
structure FetchResult (M : Type) where
  Metrics : M
  FirstResponse : String
  Res : List Result

/-! ## fetch -/

/-- The variables that the loop of lines 38-52 updates: `result.FirstResponse`,
whether `responseOnce` has already run its function, `m` and `r`. -/
structure FetchVars (M : Type) where
  FirstResponse : String
  responseOnce : Bool
  m : M
  r : List Result

/-- The `http.Response` literal of lines 40-47 for a result `res`. -/
def dumpInput (res : Result) : HttpResponse :=
  { ProtoMajor := 1
    ProtoMinor := 1
    StatusCode := (res.Code : Int)
    Header := res.Headers
    Body := res.Body
    ContentLength := (res.Body.length : Int) }

/-- One iteration of the loop of lines 38-52 for the delivered result `res`:
`responseOnce.Do` runs the capture unless it has run before, then the result
is added to the metrics and appended to `r`. -/
def fetchIter {M : Type} (lib : Lib M) (s : FetchVars M) (res : Result) : FetchVars M :=
  let s1 : FetchVars M :=
    if s.responseOnce then s
    else { s with
            FirstResponse := (lib.DumpResponse (dumpInput res) true).1
            responseOnce := true }
  { s1 with m := lib.Add s1.m res, r := s1.r ++ [res] }

/-- The function `fetch` of lines 24-57, for the stream `ch` of results that
`attacker.Attack(target, rate, duration, "")` delivers before closing the
channel (the url, rate, duration and options only reach the attacker). -/
def fetch {M : Type} (lib : Lib M) (ch : List Result) : FetchResult M :=
  let s := ch.foldl (fetchIter lib) ⟨"", false, lib.zero, []⟩
  { Metrics := lib.Close s.m
    FirstResponse := s.FirstResponse
    Res := s.r }

/-! ## waitUntilReady -/

/-- The environment of one call of `waitUntilReady`: the clock reading
`start` of line 66, the result stream delivered to the `k`-th call of
`fetch` (counted from 0) for a url, and the time in nanoseconds that passes
between the head of the `k`-th loop iteration and the clock reading of
line 87 in that iteration (never negative). -/
structure World where
  start : Int
  Attack : Nat → String → List Result
  elapsed : Nat → Nat

/-- How a call of `waitUntilReady` ends: a normal return, the panic of
line 77, the panic of line 89 (with the value of `time.Since(start)`), or
the run-time panic of a shift by a negative count at line 83. -/
inductive Outcome where
  | returned
  | badTarget (url : String) (n : Int)
  | notReady (since : Int)
  | negativeShift
deriving DecidableEq, Repr

/-- A finished call: its outcome, the number of calls of `fetch` it made and
the arguments of its calls of `time.Sleep`, in order. -/
structure Run where
  outcome : Outcome
  probes : Nat
  sleeps : List Int
deriving DecidableEq, Repr

/-- The state at the head of the loop of line 70: the counter `i`, the
current time, the number of calls of `fetch` made so far and the arguments
of the calls of `time.Sleep` made so far. -/
structure Cfg where
  i : Int
  now : Int
  probes : Nat
  sleeps : List Int
deriving DecidableEq, Repr

/-- The result of one loop iteration: go round again or stop. -/
inductive Step where
  | next (c : Cfg)
  | stop (r : Run)
deriving DecidableEq, Repr

/-- One iteration of the loop of lines 70-93 from the loop-head state `c`.
The clock is read once the probe is back (line 87); `time.Since(start)` of
line 89 is taken at that same reading. `time.Sleep(d)` returns at once for
`d ≤ 0` and otherwise advances the clock by `d`. The increment `i++` wraps
around like any Go `int` addition. -/
def attempt {M : Type} (lib : Lib M) (w : World) (url : String) (deadline : Int)
    (c : Cfg) : Step :=
  let r := fetch lib (w.Attack c.probes url)
  let metrics := r.Metrics
  let n := lib.StatusCodes metrics "404"
  if n > 0 then .stop ⟨.badTarget url n, c.probes + 1, c.sleeps⟩
  else if lib.Success metrics = 1 then .stop ⟨.returned, c.probes + 1, c.sleeps⟩
  else
    match backoff c.i with
    | none => .stop ⟨.negativeShift, c.probes + 1, c.sleeps⟩
    | some sleep =>
      let now := c.now + (w.elapsed c.probes : Int)
      if now + sleep > deadline then
        .stop ⟨.notReady (now - w.start), c.probes + 1, c.sleeps⟩
      else
        .next ⟨wrap64 (c.i + 1), now + max sleep 0, c.probes + 1, c.sleeps ++ [sleep]⟩

/-- The loop of lines 70-93, run for at most `fuel` iterations. -/
def loop {M : Type} (lib : Lib M) (w : World) (url : String) (deadline : Int) :
    Nat → Cfg → Option Run
  | 0, _ => none
  | fuel + 1, c =>
    match attempt lib w url deadline c with
    | .next c1 => loop lib w url deadline fuel c1
    | .stop r => some r

/-- The function `waitUntilReady` of lines 60-94; `none` when `fuel` loop
iterations do not finish the call. -/
def waitUntilReady {M : Type} (lib : Lib M) (w : World) (url : String) (maxWait : Int)
    (fuel : Nat) : Option Run :=
  if maxWait = 0 then some ⟨.returned, 0, []⟩
  else
    let start := w.start
    let deadline := start + maxWait
    loop lib w url deadline fuel ⟨0, start, 0, []⟩

/-- The loop-head state after `n` complete iterations from `c`, when none of
them stops. -/
def reach {M : Type} (lib : Lib M) (w : World) (url : String) (deadline : Int) :
    Nat → Cfg → Option Cfg
  | 0, c => some c
  | n + 1, c =>
    match attempt lib w url deadline c with
    | .next c1 => reach lib w url deadline n c1
    | .stop _ => none

/-- The metrics that the `k`-th probe of `waitUntilReady` hands back
(`r.Metrics` of line 74 in the iteration that makes the `k`-th call). -/
def probeMetrics {M : Type} (lib : Lib M) (w : World) (url : String) (k : Nat) : M :=
  (fetch lib (w.Attack k url)).Metrics

/-! ## A concrete instance of the collaborators -/

/-- Modelled from the spec: the external metrics aggregate, reduced to the
request count, the status-code histogram, the count of successful results
and the success ratio. -/
structure Metrics where
  Requests : Nat
  StatusCodes : String → Nat
  success : Nat
  Success : Rat

/-- Modelled from the spec: the empty aggregate. -/
def Metrics.zero : Metrics := ⟨0, fun _ => 0, 0, 0⟩

/-- Modelled from the spec: adding one result counts the request, its status
code (keyed by its decimal string) and, for codes 200-399, a success. -/
def Metrics.Add (m : Metrics) (r : Result) : Metrics :=
  { m with
    Requests := m.Requests + 1
    StatusCodes := fun k => if k = toString r.Code then m.StatusCodes k + 1 else m.StatusCodes k
    success := if 200 ≤ r.Code ∧ r.Code < 400 then m.success + 1 else m.success }

/-- Modelled from the spec: closing the aggregate computes the success
ratio (with no request at all the ratio is not 1). -/
def Metrics.Close (m : Metrics) : Metrics :=
  { m with Success := mkRat (m.success : Int) m.Requests }

/-- Modelled from the spec: a stand-in for the response dumper, which writes
the status line, the headers and, when asked for, the body. -/
def dumpText (resp : HttpResponse) (body : Bool) : String × Option String :=
  ("HTTP/" ++ toString resp.ProtoMajor ++ "." ++ toString resp.ProtoMinor ++ " " ++
      toString resp.StatusCode ++ "\r\n" ++
    String.join (resp.Header.map fun h => h.1 ++ ": " ++ ", ".intercalate h.2 ++ "\r\n") ++
    "Content-Length: " ++ toString resp.ContentLength ++ "\r\n\r\n" ++
    (if body then String.mk (resp.Body.map Char.ofNat) else ""), none)

/-- The concrete collaborators used for evaluation. -/
def stdLib : Lib Metrics :=
  { zero := Metrics.zero
    Add := Metrics.Add
    Close := Metrics.Close
    StatusCodes := fun m k => (m.StatusCodes k : Int)
    Success := fun m => m.Success
    Requests := fun m => m.Requests
    DumpResponse := dumpText }

/-- A result with the given status code and an empty body. -/
def resp (code : Nat) : Result := ⟨code, [], []⟩

/-- A target that answers every probe with status 503 after one second. -/
def down : World := ⟨0, fun _ _ => [resp 503], fun _ => 1000000000⟩

/-- A target that answers every probe with status 503 and a clock that does
not advance while a probe is made. -/
def frozen : World := ⟨0, fun _ _ => [resp 503], fun _ => 0⟩

/-- A target that answers every probe with status 404. -/
def missing : World := ⟨0, fun _ _ => [resp 404], fun _ => 1000000000⟩

/-- A target that answers 503 to the first `k` probes and 404 from then on. -/
def missingAfter (k : Nat) : World :=
  ⟨0, fun n _ => if n < k then [resp 503] else [resp 404], fun _ => 1000000000⟩

/-- A target that answers every probe with status 200. -/
def up : World := ⟨0, fun _ _ => [resp 200], fun _ => 1000000000⟩

/-- A target that answers 503 to the first `k` probes and 200 from then on. -/
def upAfter (k : Nat) : World :=
  ⟨0, fun n _ => if n < k then [resp 503] else [resp 200], fun _ => 1000000000⟩

/-! ## Basic facts about the loop -/

theorem wrap64_id (z : Int) (h1 : -9223372036854775808 ≤ z) (h2 : z < 9223372036854775808) :
    wrap64 z = z := by
  unfold wrap64
  omega

theorem wrap64_succ_max : wrap64 (9223372036854775807 + 1) = -9223372036854775808 := by
  decide

theorem backoff_neg (i : Int) (h : i < 0) : backoff i = none := by
  simp [backoff, rawSleep, shl64, h]

theorem backoff_isSome (i : Int) (h : 0 ≤ i) : ∃ s, backoff i = some s := by
  have h1 : ¬ i < 0 := by omega
  by_cases h2 : 64 ≤ i <;> simp [backoff, rawSleep, shl64, h1, h2]

theorem backoff_eq_min (i : Int) (h0 : 0 ≤ i) (h34 : i ≤ 34) :
    backoff i = some (min (2 ^ i.toNat * (500 * Millisecond)) maxSleep) := by
  interval_cases i <;> decide

theorem backoff_of_ge_56 (i : Int) (h : 56 ≤ i) : backoff i = some 0 := by
  by_cases h64 : 64 ≤ i
  · have h1 : ¬ i < 0 := by omega
    simp [backoff, rawSleep, shl64, h1, h64]
    decide
  · have h2 : i ≤ 63 := by omega
    interval_cases i <;> decide

theorem attempt_404 {M : Type} (lib : Lib M) (w : World) (url : String) (deadline : Int)
    (c : Cfg) (h : 0 < lib.StatusCodes (probeMetrics lib w url c.probes) "404") :
    attempt lib w url deadline c =
      .stop ⟨.badTarget url (lib.StatusCodes (probeMetrics lib w url c.probes) "404"),
        c.probes + 1, c.sleeps⟩ := by
  unfold probeMetrics at h
  simp [attempt, probeMetrics, h]

theorem attempt_ready {M : Type} (lib : Lib M) (w : World) (url : String) (deadline : Int)
    (c : Cfg) (h : ¬ 0 < lib.StatusCodes (probeMetrics lib w url c.probes) "404")
    (hs : lib.Success (probeMetrics lib w url c.probes) = 1) :
    attempt lib w url deadline c = .stop ⟨.returned, c.probes + 1, c.sleeps⟩ := by
  unfold probeMetrics at h hs
  simp [attempt, h, hs]

theorem attempt_backoff {M : Type} (lib : Lib M) (w : World) (url : String) (deadline : Int)
    (c : Cfg) (sleep : Int)
    (h : ¬ 0 < lib.StatusCodes (probeMetrics lib w url c.probes) "404")
    (hs : lib.Success (probeMetrics lib w url c.probes) ≠ 1)
    (hb : backoff c.i = some sleep) :
    attempt lib w url deadline c =
      if deadline < c.now + (w.elapsed c.probes : Int) + sleep then
        .stop ⟨.notReady (c.now + (w.elapsed c.probes : Int) - w.start), c.probes + 1, c.sleeps⟩
      else
        .next ⟨wrap64 (c.i + 1), c.now + (w.elapsed c.probes : Int) + max sleep 0,
          c.probes + 1, c.sleeps ++ [sleep]⟩ := by
  unfold probeMetrics at h hs
  simp [attempt, h, hs, hb]

theorem attempt_negativeShift {M : Type} (lib : Lib M) (w : World) (url : String)
    (deadline : Int) (c : Cfg)
    (h : ¬ 0 < lib.StatusCodes (probeMetrics lib w url c.probes) "404")
    (hs : lib.Success (probeMetrics lib w url c.probes) ≠ 1)
    (hb : c.i < 0) :
    attempt lib w url deadline c = .stop ⟨.negativeShift, c.probes + 1, c.sleeps⟩ := by
  unfold probeMetrics at h hs
  simp [attempt, h, hs, backoff_neg c.i hb]

theorem loop_succ_stop {M : Type} (lib : Lib M) (w : World) (url : String) (deadline : Int)
    (fuel : Nat) (c : Cfg) (r : Run) (h : attempt lib w url deadline c = .stop r) :
    loop lib w url deadline (fuel + 1) c = some r := by
  simp [loop, h]

theorem loop_succ_next {M : Type} (lib : Lib M) (w : World) (url : String) (deadline : Int)
    (fuel : Nat) (c c1 : Cfg) (h : attempt lib w url deadline c = .next c1) :
    loop lib w url deadline (fuel + 1) c = loop lib w url deadline fuel c1 := by
  simp [loop, h]

theorem reach_succ {M : Type} (lib : Lib M) (w : World) (url : String) (deadline : Int)
    (n : Nat) (c c2 : Cfg) (h : reach lib w url deadline (n + 1) c = some c2) :
    ∃ c1, attempt lib w url deadline c = .next c1 ∧ reach lib w url deadline n c1 = some c2 := by
  unfold reach at h
  split at h
  · next c1 hc => exact ⟨c1, hc, h⟩
  · exact absurd h (by simp)

theorem loop_of_reach {M : Type} (lib : Lib M) (w : World) (url : String) (deadline : Int)
    (n : Nat) : ∀ (c c2 : Cfg), reach lib w url deadline n c = some c2 →
      ∀ fuel, loop lib w url deadline (n + fuel) c = loop lib w url deadline fuel c2 := by
  induction n with
  | zero =>
    intro c c2 h fuel
    simp [reach] at h
    simp [h]
  | succ n ih =>
    intro c c2 h fuel
    obtain ⟨c1, h1, h2⟩ := reach_succ lib w url deadline n c c2 h
    have e : n + 1 + fuel = (n + fuel) + 1 := by omega
    rw [e, loop_succ_next lib w url deadline (n + fuel) c c1 h1]
    exact ih c1 c2 h2 fuel

theorem loop_none_of_reach {M : Type} (lib : Lib M) (w : World) (url : String)
    (deadline : Int) (n : Nat) : ∀ (c c2 : Cfg), reach lib w url deadline n c = some c2 →
      ∀ fuel, fuel ≤ n → loop lib w url deadline fuel c = none := by
  induction n with
  | zero =>
    intro c c2 _ fuel hf
    have : fuel = 0 := by omega
    subst this
    rfl
  | succ n ih =>
    intro c c2 h fuel hf
    obtain ⟨c1, h1, h2⟩ := reach_succ lib w url deadline n c c2 h
    cases fuel with
    | zero => rfl
    | succ m =>
      rw [loop_succ_next lib w url deadline m c c1 h1]
      exact ih c1 c2 h2 m (by omega)

theorem attempt_next_counts {M : Type} (lib : Lib M) (w : World) (url : String)
    (deadline : Int) (c c1 : Cfg) (h : attempt lib w url deadline c = .next c1) :
    c1.probes = c.probes + 1 ∧ c1.sleeps.length = c.sleeps.length + 1 := by
  unfold attempt at h
  simp only at h
  split_ifs at h
  split at h
  · exact absurd h (by simp)
  · split_ifs at h
    simp only [Step.next.injEq] at h
    subst h
    simp

theorem reach_counts {M : Type} (lib : Lib M) (w : World) (url : String) (deadline : Int)
    (n : Nat) : ∀ (c c2 : Cfg), reach lib w url deadline n c = some c2 →
      c2.probes = c.probes + n ∧ c2.sleeps.length = c.sleeps.length + n := by
  induction n with
  | zero =>
    intro c c2 h
    simp [reach] at h
    simp [h]
  | succ n ih =>
    intro c c2 h
    obtain ⟨c1, h1, h2⟩ := reach_succ lib w url deadline n c c2 h
    obtain ⟨p1, p2⟩ := attempt_next_counts lib w url deadline c c1 h1
    obtain ⟨q1, q2⟩ := ih c1 c2 h2
    constructor <;> omega

/-! ## The readiness prober: claims about single attempts and short runs -/

/-- C3: for every url, `waitUntilReady(url, 0)` returns normally, having made
no call of `fetch` and no call of `time.Sleep`; no loop iteration is needed
(any fuel, zero included, gives the result). -/
theorem waitUntilReady_zero_wait {M : Type} (lib : Lib M) (w : World) (url : String)
    (fuel : Nat) :
    waitUntilReady lib w url 0 fuel = some ⟨.returned, 0, []⟩ := by
  simp [waitUntilReady]

/-- C4: for every url and every `maxWait ≠ 0`, when the first probe reports
no 404 response and a success ratio of exactly 1, `waitUntilReady` returns
normally after exactly one probe and no sleep, whatever the deadline. -/
theorem waitUntilReady_ready_at_first_probe {M : Type} (lib : Lib M) (w : World)
    (url : String) (maxWait : Int) (fuel : Nat) (hmax : maxWait ≠ 0)
    (h404 : lib.StatusCodes (probeMetrics lib w url 0) "404" = 0)
    (hs : lib.Success (probeMetrics lib w url 0) = 1) :
    waitUntilReady lib w url maxWait (fuel + 1) = some ⟨.returned, 1, []⟩ := by
  have h : ¬ 0 < lib.StatusCodes (probeMetrics lib w url 0) "404" := by omega
  have ha := attempt_ready lib w url (w.start + maxWait) ⟨0, w.start, 0, []⟩ h hs
  simp only [waitUntilReady, hmax, if_false]
  exact loop_succ_stop lib w url (w.start + maxWait) fuel _ _ ha

theorem waitUntilReady_ready_at_first_probe_witness :
    waitUntilReady stdLib up "http://localhost:8080/" (400 * Second) 1
      = some ⟨.returned, 1, []⟩ :=
  waitUntilReady_ready_at_first_probe stdLib up "http://localhost:8080/" (400 * Second) 0
    (by decide) (by decide) (by decide)

/-- C2: for every url and every `maxWait ≠ 0`, when the run reaches attempt
`n` (the loop-head state `c` after `n` complete iterations) and the probe of
that attempt counts at least one 404 response, `waitUntilReady` panics with
the bad-target error in that attempt: the run has made `n + 1` probes and
only the `n` sleeps made before the attempt, whatever the success ratio and
the deadline. In particular a target whose probes always count a 404 makes
the call fail at attempt 0 after exactly one probe and no sleep. -/
theorem waitUntilReady_404_fatal {M : Type} (lib : Lib M) (w : World) (url : String)
    (maxWait : Int) (hmax : maxWait ≠ 0) :
    (∀ (n : Nat) (c : Cfg) (fuel : Nat),
      reach lib w url (w.start + maxWait) n ⟨0, w.start, 0, []⟩ = some c →
      0 < lib.StatusCodes (probeMetrics lib w url n) "404" →
      waitUntilReady lib w url maxWait (n + (fuel + 1)) =
          some ⟨.badTarget url (lib.StatusCodes (probeMetrics lib w url n) "404"),
            n + 1, c.sleeps⟩
        ∧ c.sleeps.length = n) ∧
    ((∀ k, 0 < lib.StatusCodes (probeMetrics lib w url k) "404") →
      ∀ fuel, waitUntilReady lib w url maxWait (fuel + 1) =
        some ⟨.badTarget url (lib.StatusCodes (probeMetrics lib w url 0) "404"), 1, []⟩) := by
  constructor
  · intro n c fuel hreach h404
    obtain ⟨hp, hl⟩ := reach_counts lib w url (w.start + maxWait) n _ c hreach
    simp only [Nat.zero_add, List.length_nil] at hp hl
    refine ⟨?_, hl⟩
    simp only [waitUntilReady, hmax, if_false]
    rw [loop_of_reach lib w url (w.start + maxWait) n _ c hreach (fuel + 1)]
    rw [← hp] at h404 ⊢
    exact loop_succ_stop lib w url (w.start + maxWait) fuel c _
      (attempt_404 lib w url (w.start + maxWait) c h404)
  · intro hall fuel
    simp only [waitUntilReady, hmax, if_false]
    exact loop_succ_stop lib w url (w.start + maxWait) fuel _ _
      (attempt_404 lib w url (w.start + maxWait) ⟨0, w.start, 0, []⟩ (hall 0))

theorem waitUntilReady_404_fatal_witness :
    (waitUntilReady stdLib (missingAfter 2) "http://localhost:8080/" (400 * Second) 3
        = some ⟨.badTarget "http://localhost:8080/" 1, 3, [500000000, 1000000000]⟩) ∧
    (waitUntilReady stdLib missing "http://localhost:8080/" (400 * Second) 1
        = some ⟨.badTarget "http://localhost:8080/" 1, 1, []⟩) :=
  ⟨((waitUntilReady_404_fatal stdLib (missingAfter 2) "http://localhost:8080/" (400 * Second)
      (by decide)).1 2 ⟨2, 3500000000, 2, [500000000, 1000000000]⟩ 0
      (by decide) (by decide)).1,
   (waitUntilReady_404_fatal stdLib missing "http://localhost:8080/" (400 * Second)
      (by decide)).2
      (fun _ => show 0 < stdLib.StatusCodes (fetch stdLib [resp 404]).Metrics "404" by decide) 0⟩

/-- C10: for every `maxWait < 0`, `waitUntilReady` makes exactly one probe and
never sleeps: it panics with the bad-target error when that probe counts a
404, returns normally when it counts none and has success ratio 1, and
otherwise panics with the deadline error (the deadline lies before `start`).
It does not behave as for `maxWait = 0`, where no probe is made. -/
theorem waitUntilReady_negative_wait {M : Type} (lib : Lib M) (w : World) (url : String)
    (maxWait : Int) (fuel : Nat) (hneg : maxWait < 0) :
    waitUntilReady lib w url maxWait (fuel + 1) =
      some ⟨(if 0 < lib.StatusCodes (probeMetrics lib w url 0) "404" then
              .badTarget url (lib.StatusCodes (probeMetrics lib w url 0) "404")
            else if lib.Success (probeMetrics lib w url 0) = 1 then .returned
            else .notReady (w.elapsed 0 : Int)), 1, []⟩ := by
  have hmax : maxWait ≠ 0 := by omega
  simp only [waitUntilReady, hmax, if_false]
  apply loop_succ_stop
  by_cases h404 : 0 < lib.StatusCodes (probeMetrics lib w url 0) "404"
  · simp only [h404, if_true]
    exact attempt_404 lib w url (w.start + maxWait) ⟨0, w.start, 0, []⟩ h404
  · by_cases hs : lib.Success (probeMetrics lib w url 0) = 1
    · simp only [h404, hs, if_true, if_false]
      exact attempt_ready lib w url (w.start + maxWait) ⟨0, w.start, 0, []⟩ h404 hs
    · simp only [h404, hs, if_false]
      have hb : backoff 0 = some 500000000 := by decide
      rw [attempt_backoff lib w url (w.start + maxWait) ⟨0, w.start, 0, []⟩ 500000000 h404 hs hb]
      have hlt : w.start + maxWait < w.start + (w.elapsed 0 : Int) + 500000000 := by omega
      simp [hlt]

theorem waitUntilReady_negative_wait_witness :
    (waitUntilReady stdLib down "http://localhost:8080/" (-1) 1
        = some ⟨.notReady 1000000000, 1, []⟩) ∧
    (waitUntilReady stdLib up "http://localhost:8080/" (-1) 1 = some ⟨.returned, 1, []⟩) ∧
    (waitUntilReady stdLib missing "http://localhost:8080/" (-1) 1
        = some ⟨.badTarget "http://localhost:8080/" 1, 1, []⟩) :=
  ⟨waitUntilReady_negative_wait stdLib down "http://localhost:8080/" (-1) 0 (by decide),
   waitUntilReady_negative_wait stdLib up "http://localhost:8080/" (-1) 0 (by decide),
   waitUntilReady_negative_wait stdLib missing "http://localhost:8080/" (-1) 0 (by decide)⟩

/-- For the attempts 0 to 34, whose product at line 83 does not overflow: when
the probe counts no 404 and has a success ratio other than 1, the attempt
panics with the deadline error if and only if the clock reading plus
min(2^i * 500ms, 10s) is strictly after `start + maxWait`; otherwise it calls
`time.Sleep` with that duration and goes on with attempt `i + 1`. -/
theorem attempt_deadline_check_upto_34 {M : Type} (lib : Lib M) (w : World) (url : String)
    (maxWait : Int) (c : Cfg) (hi : 0 ≤ c.i) (h34 : c.i ≤ 34)
    (h404 : lib.StatusCodes (probeMetrics lib w url c.probes) "404" = 0)
    (hs : lib.Success (probeMetrics lib w url c.probes) ≠ 1) :
    (attempt lib w url (w.start + maxWait) c =
        .stop ⟨.notReady (c.now + (w.elapsed c.probes : Int) - w.start), c.probes + 1, c.sleeps⟩
      ↔ w.start + maxWait < c.now + (w.elapsed c.probes : Int) +
          min (2 ^ c.i.toNat * (500 * Millisecond)) maxSleep) ∧
    (¬ w.start + maxWait < c.now + (w.elapsed c.probes : Int) +
          min (2 ^ c.i.toNat * (500 * Millisecond)) maxSleep →
      attempt lib w url (w.start + maxWait) c =
        .next ⟨c.i + 1,
          c.now + (w.elapsed c.probes : Int) + min (2 ^ c.i.toNat * (500 * Millisecond)) maxSleep,
          c.probes + 1, c.sleeps ++ [min (2 ^ c.i.toNat * (500 * Millisecond)) maxSleep]⟩) := by
  have h : ¬ 0 < lib.StatusCodes (probeMetrics lib w url c.probes) "404" := by omega
  have hb := backoff_eq_min c.i hi h34
  have hpos : (0 : Int) ≤ min (2 ^ c.i.toNat * (500 * Millisecond)) maxSleep := by
    apply le_min
    · have : (0 : Int) < 2 ^ c.i.toNat := by positivity
      have h5 : (0 : Int) < 500 * Millisecond := by decide
      exact le_of_lt (mul_pos this h5)
    · decide
  rw [attempt_backoff lib w url (w.start + maxWait) c _ h hs hb]
  rw [wrap64_id (c.i + 1) (by omega) (by omega), max_eq_left hpos]
  constructor
  · by_cases hd : w.start + maxWait < c.now + (w.elapsed c.probes : Int) +
        min (2 ^ c.i.toNat * (500 * Millisecond)) maxSleep
    · simp [hd]
    · simp [hd]
  · intro hd
    simp [hd]

/-! ## fetch: what the loop over the result stream leaves behind -/

theorem fetchIter_done {M : Type} (lib : Lib M) (s : FetchVars M) (res : Result)
    (h : s.responseOnce = true) :
    (fetchIter lib s res).FirstResponse = s.FirstResponse ∧
      (fetchIter lib s res).responseOnce = true := by
  simp [fetchIter, h]

theorem foldl_fetchIter_done {M : Type} (lib : Lib M) (ch : List Result) :
    ∀ s : FetchVars M, s.responseOnce = true →
      (ch.foldl (fetchIter lib) s).FirstResponse = s.FirstResponse := by
  induction ch with
  | nil => intro s _; rfl
  | cons res rest ih =>
    intro s h
    obtain ⟨h1, h2⟩ := fetchIter_done lib s res h
    rw [List.foldl_cons, ih (fetchIter lib s res) h2, h1]

theorem foldl_fetchIter_r {M : Type} (lib : Lib M) (ch : List Result) :
    ∀ s : FetchVars M, (ch.foldl (fetchIter lib) s).r = s.r ++ ch := by
  induction ch with
  | nil => intro s; simp
  | cons res rest ih =>
    intro s
    rw [List.foldl_cons, ih]
    simp only [fetchIter]
    split_ifs <;> simp

theorem foldl_fetchIter_m {M : Type} (lib : Lib M) (ch : List Result) :
    ∀ s : FetchVars M, (ch.foldl (fetchIter lib) s).m = ch.foldl lib.Add s.m := by
  induction ch with
  | nil => intro s; rfl
  | cons res rest ih =>
    intro s
    rw [List.foldl_cons, List.foldl_cons, ih]
    simp only [fetchIter]
    split_ifs <;> rfl

theorem foldl_Add_Requests {M : Type} (lib : Lib M)
    (hadd : ∀ m r, lib.Requests (lib.Add m r) = lib.Requests m + 1) (ch : List Result) :
    ∀ m : M, lib.Requests (ch.foldl lib.Add m) = lib.Requests m + ch.length := by
  induction ch with
  | nil => intro m; simp
  | cons res rest ih =>
    intro m
    rw [List.foldl_cons, ih, hadd, List.length_cons]
    omega

/-- C8: for every result stream delivered to `fetch`, `FirstResponse` is the
dump (with body) of the HTTP/1.1 response built from the first delivered
result alone: its status code, headers and body, with the content length set
to the body length. Two streams with the same first result give the same
`FirstResponse` whatever follows, and the empty stream gives the empty
string. -/
theorem fetch_FirstResponse_first_only {M : Type} (lib : Lib M) :
    (fetch lib []).FirstResponse = "" ∧
    (∀ (res : Result) (rest : List Result),
      (fetch lib (res :: rest)).FirstResponse =
        (lib.DumpResponse
          { ProtoMajor := 1, ProtoMinor := 1, StatusCode := (res.Code : Int),
            Header := res.Headers, Body := res.Body,
            ContentLength := (res.Body.length : Int) } true).1) ∧
    (∀ (res : Result) (rest1 rest2 : List Result),
      (fetch lib (res :: rest1)).FirstResponse = (fetch lib (res :: rest2)).FirstResponse) := by
  have key : ∀ (res : Result) (rest : List Result),
      (fetch lib (res :: rest)).FirstResponse =
        (lib.DumpResponse (dumpInput res) true).1 := by
    intro res rest
    simp only [fetch, List.foldl_cons]
    rw [foldl_fetchIter_done lib rest _ (by simp [fetchIter])]
    simp [fetchIter]
  refine ⟨rfl, ?_, ?_⟩
  · intro res rest
    exact key res rest
  · intro res rest1 rest2
    rw [key res rest1, key res rest2]

/-- C9: for every result stream delivered to `fetch`, `Res` is exactly the
delivered sequence, in order, and `Metrics` is the aggregate obtained by
adding those results, each once and in that order, to the empty aggregate
and closing it. For a metrics aggregate whose `Add` counts one request and
whose `Close` keeps the count, the request count of `Metrics` is
`len(Res)`. -/
theorem fetch_Res_and_Metrics {M : Type} (lib : Lib M) (ch : List Result)
    (hzero : lib.Requests lib.zero = 0)
    (hadd : ∀ m r, lib.Requests (lib.Add m r) = lib.Requests m + 1)
    (hclose : ∀ m, lib.Requests (lib.Close m) = lib.Requests m) :
    (fetch lib ch).Res = ch ∧
    (fetch lib ch).Metrics = lib.Close (ch.foldl lib.Add lib.zero) ∧
    lib.Requests (fetch lib ch).Metrics = (fetch lib ch).Res.length := by
  have hr : (fetch lib ch).Res = ch := by
    simp [fetch, foldl_fetchIter_r]
  have hm : (fetch lib ch).Metrics = lib.Close (ch.foldl lib.Add lib.zero) := by
    simp [fetch, foldl_fetchIter_m]
  refine ⟨hr, hm, ?_⟩
  rw [hm, hr, hclose, foldl_Add_Requests lib hadd, hzero]
  omega

theorem fetch_Res_and_Metrics_witness :
    (fetch stdLib [resp 200, resp 503, resp 200]).Res = [resp 200, resp 503, resp 200] ∧
    (fetch stdLib [resp 200, resp 503, resp 200]).Metrics =
      stdLib.Close ([resp 200, resp 503, resp 200].foldl stdLib.Add stdLib.zero) ∧
    stdLib.Requests (fetch stdLib [resp 200, resp 503, resp 200]).Metrics =
      (fetch stdLib [resp 200, resp 503, resp 200]).Res.length :=
  fetch_Res_and_Metrics stdLib [resp 200, resp 503, resp 200] rfl (fun _ _ => rfl) (fun _ => rfl)

/-! ## The backoff of line 83 beyond attempt 34 -/

/-- C1: at attempt 35 the product of line 83 has wrapped around in 64-bit
arithmetic: the capped backoff is a negative duration, where the documented
value min(2^35 * 500ms, 10s) is 10s; at attempt 56 it is zero. The loop
counter does take the value 35: against a target that answers 503 to every
probe, with `maxWait` of 400s, the run is at the head of attempt 35 after 35
complete iterations. -/
theorem backoff_wraps_at_attempt_35 :
    backoff 35 = some (-1266874889709551616) ∧
    min ((2 : Int) ^ 35 * (500 * Millisecond)) maxSleep = 10 * Second ∧
    backoff 56 = some 0 ∧
    (reach stdLib down "http://localhost:8080/" (0 + 400 * Second) 35 ⟨0, 0, 0, []⟩).map
      (fun c => c.i) = some 35 := by
  decide

/-- C7: the run against a target that answers 503 to every probe (one second
per probe), with `maxWait` of 400s, ends with the deadline error after 47
probes and 46 sleeps; its sleep number 35 is called with a negative duration,
not with min(2^35 * 500ms, 10s) = 10s. -/
theorem waitUntilReady_sleep_35_negative :
    ∃ r : Run, waitUntilReady stdLib down "http://localhost:8080/" (400 * Second) 47 = some r ∧
      r.outcome = .notReady 392500000000 ∧
      r.probes = 47 ∧
      r.sleeps.length = 46 ∧
      r.sleeps.get? 35 = some (-1266874889709551616) ∧
      min ((2 : Int) ^ 35 * (500 * Millisecond)) maxSleep = 10 * Second := by
  refine ⟨(waitUntilReady stdLib down "http://localhost:8080/" (400 * Second) 47).get
    (by decide), by simp, ?_, ?_, ?_, ?_, ?_⟩ <;> decide

/-- The capped backoff computed for the attempts 35 to 55: negative at
thirteen of them, the 10s cap at the other eight. -/
theorem backoff_35_to_55 :
    (List.range 21).map (fun (k : Nat) => backoff (35 + (k : Int))) =
      [some (-1266874889709551616), some (-2533749779419103232), some (-5067499558838206464),
       some 10000000000, some (-1823254161643274240), some (-3646508323286548480),
       some (-7293016646573096960), some 10000000000, some 10000000000,
       some (-3003900951456120832), some (-6007801902912241664), some 10000000000,
       some (-5584463537939415040), some 10000000000, some (-3891110078048108544),
       some (-7782220156096217088), some 10000000000, some 10000000000,
       some (-6917529027641081856), some 10000000000, some (-9223372036854775808)] := by
  decide

/-- C5: against a target that answers 503 to every probe (one second per
probe), with `maxWait` of 351s, the run is at the head of attempt 35 at
350.5s. The probe of that attempt is back at 351.5s, so the clock reading
plus the capped backoff min(2^35 * 500ms, 10s) = 10s is strictly after
`start + maxWait`; the attempt nevertheless does not panic with the deadline
error: it calls `time.Sleep(-1266874889709551616ns)` and goes on with
attempt 36. The run only ends with the deadline error at attempt 38. -/
theorem attempt_35_passes_crossed_deadline :
    ∃ c : Cfg,
      reach stdLib down "http://localhost:8080/" (0 + 351 * Second) 35 ⟨0, 0, 0, []⟩ = some c ∧
      c.i = 35 ∧ c.now = 350500000000 ∧
      (0 + 351 * Second <
        c.now + ((down.elapsed c.probes : Nat) : Int) +
          min ((2 : Int) ^ 35 * (500 * Millisecond)) maxSleep) ∧
      attempt stdLib down "http://localhost:8080/" (0 + 351 * Second) c =
        .next ⟨36, 351500000000, 36, c.sleeps ++ [-1266874889709551616]⟩ ∧
      (waitUntilReady stdLib down "http://localhost:8080/" (351 * Second) 39).map
        (fun r => (r.outcome, r.probes)) = some (.notReady 354500000000, 39) := by
  refine ⟨(reach stdLib down "http://localhost:8080/" (0 + 351 * Second) 35 ⟨0, 0, 0, []⟩).get
    (by decide), by simp, ?_, ?_, ?_, ?_, ?_⟩ <;> decide

/-! ## A clock that stands still while probes are made -/

theorem frozen_probe_no_404 (url : String) (k : Nat) :
    ¬ 0 < stdLib.StatusCodes (probeMetrics stdLib frozen url k) "404" := by
  show ¬ 0 < stdLib.StatusCodes (fetch stdLib [resp 503]).Metrics "404"
  decide

theorem frozen_probe_not_ready (url : String) (k : Nat) :
    stdLib.Success (probeMetrics stdLib frozen url k) ≠ 1 := by
  show stdLib.Success (fetch stdLib [resp 503]).Metrics ≠ 1
  decide

theorem frozen_attempt_of_ge_56 (url : String) (deadline : Int) (c : Cfg)
    (h56 : 56 ≤ c.i) (hnow : c.now ≤ deadline) :
    attempt stdLib frozen url deadline c =
      .next ⟨wrap64 (c.i + 1), c.now, c.probes + 1, c.sleeps ++ [0]⟩ := by
  rw [attempt_backoff stdLib frozen url deadline c 0 (frozen_probe_no_404 url c.probes)
    (frozen_probe_not_ready url c.probes) (backoff_of_ge_56 c.i h56)]
  have e : (frozen.elapsed c.probes : Int) = 0 := rfl
  have hd : ¬ deadline < c.now := by omega
  simp [e, hd]

theorem frozen_attempt_of_neg (url : String) (deadline : Int) (c : Cfg) (hneg : c.i < 0) :
    attempt stdLib frozen url deadline c = .stop ⟨.negativeShift, c.probes + 1, c.sleeps⟩ :=
  attempt_negativeShift stdLib frozen url deadline c (frozen_probe_no_404 url c.probes)
    (frozen_probe_not_ready url c.probes) hneg

theorem frozen_loop_invariant (url : String) (deadline : Int) (fuel : Nat) :
    ∀ c : Cfg, c.now ≤ deadline →
      ((56 ≤ c.i ∧ c.i ≤ 9223372036854775807 ∧ (c.probes : Int) = c.i) ∨
        (c.i < 0 ∧ c.probes = 9223372036854775808)) →
      loop stdLib frozen url deadline fuel c = none ∨
        ∃ r, loop stdLib frozen url deadline fuel c = some r ∧
          r.outcome = .negativeShift ∧ 9223372036854775808 < r.probes := by
  induction fuel with
  | zero => intro c _ _; exact Or.inl rfl
  | succ fuel ih =>
    intro c hnow hinv
    rcases hinv with ⟨h56, hmax, hp⟩ | ⟨hneg, hp⟩
    · rw [loop_succ_next stdLib frozen url deadline fuel c _
        (frozen_attempt_of_ge_56 url deadline c h56 hnow)]
      apply ih
      · exact hnow
      · by_cases hlast : c.i = 9223372036854775807
        · right
          refine ⟨?_, ?_⟩
          · show wrap64 (c.i + 1) < 0
            rw [hlast, wrap64_succ_max]
            decide
          · show c.probes + 1 = 9223372036854775808
            omega
        · left
          refine ⟨?_, ?_, ?_⟩
          · show 56 ≤ wrap64 (c.i + 1)
            rw [wrap64_id (c.i + 1) (by omega) (by omega)]
            omega
          · show wrap64 (c.i + 1) ≤ 9223372036854775807
            rw [wrap64_id (c.i + 1) (by omega) (by omega)]
            omega
          · show ((c.probes + 1 : Nat) : Int) = wrap64 (c.i + 1)
            rw [wrap64_id (c.i + 1) (by omega) (by omega)]
            omega
    · right
      refine ⟨_, loop_succ_stop stdLib frozen url deadline fuel c _
        (frozen_attempt_of_neg url deadline c hneg), rfl, ?_⟩
      show 9223372036854775808 < c.probes + 1
      omega

theorem frozen_reach_56 :
    (reach stdLib frozen "http://localhost:8080/" (0 + 3600 * Second) 56 ⟨0, 0, 0, []⟩).map
      (fun c => (c.i, c.now, c.probes)) = some (56, 395500000000, 56) := by
  decide

/-- With `maxWait` of one hour, against a target that answers 503 to every
probe and a clock that does not advance while a probe is made: however many
iterations are run, the call is still running or has ended with the run-time
panic of a negative shift count, after more than 2^63 probes. -/
theorem frozen_run_running_or_shift_panic (fuel : Nat) :
    waitUntilReady stdLib frozen "http://localhost:8080/" (3600 * Second) fuel = none ∨
      ∃ r, waitUntilReady stdLib frozen "http://localhost:8080/" (3600 * Second) fuel = some r ∧
        r.outcome = .negativeShift ∧ 9223372036854775808 < r.probes := by
  have h56 := frozen_reach_56
  cases hr : reach stdLib frozen "http://localhost:8080/" (0 + 3600 * Second) 56 ⟨0, 0, 0, []⟩ with
  | none =>
    rw [hr] at h56
    exact absurd h56 (by simp)
  | some c =>
    rw [hr] at h56
    simp only [Option.map_some', Option.some.injEq, Prod.mk.injEq] at h56
    obtain ⟨hi, hnow, hp⟩ := h56
    have hw : ∀ n, waitUntilReady stdLib frozen "http://localhost:8080/" (3600 * Second) n =
        loop stdLib frozen "http://localhost:8080/" (0 + 3600 * Second) n ⟨0, 0, 0, []⟩ := by
      intro n
      have hne : (3600 * Second : Int) ≠ 0 := by decide
      simp only [waitUntilReady, hne, if_false]
      rfl
    rw [hw]
    by_cases hf : fuel ≤ 56
    · exact Or.inl (loop_none_of_reach stdLib frozen _ _ 56 _ c hr fuel hf)
    · obtain ⟨m, rfl⟩ : ∃ m, fuel = 56 + m := ⟨fuel - 56, by omega⟩
      rw [loop_of_reach stdLib frozen _ _ 56 _ c hr m]
      apply frozen_loop_invariant
      · rw [hnow]; decide
      · left
        refine ⟨by omega, by omega, ?_⟩
        rw [hp, hi]
        rfl

/-- C6, counterexample: under a clock in which a probe may take no time at
all, the call with `maxWait` of one hour against a target that answers 503
to every probe never ends with the deadline error, whatever number of loop
iterations is allowed. -/
theorem waitUntilReady_frozen_clock_no_deadline_error :
    ¬ ∃ (fuel : Nat) (r : Run) (t : Int),
      waitUntilReady stdLib frozen "http://localhost:8080/" (3600 * Second) fuel = some r ∧
        r.outcome = .notReady t := by
  rintro ⟨fuel, r, t, hrun, hout⟩
  rcases frozen_run_running_or_shift_panic fuel with hnone | ⟨r2, hsome, hshift, _⟩
  · rw [hnone] at hrun
    exact absurd hrun (by simp)
  · rw [hsome] at hrun
    simp only [Option.some.injEq] at hrun
    subst hrun
    rw [hshift] at hout
    exact absurd hout (by simp)

/-! ## Runs in which every probe takes time -/

theorem reach_snoc {M : Type} (lib : Lib M) (w : World) (url : String) (deadline : Int)
    (n : Nat) : ∀ (c0 c c1 : Cfg), reach lib w url deadline n c0 = some c →
      attempt lib w url deadline c = .next c1 →
      reach lib w url deadline (n + 1) c0 = some c1 := by
  induction n with
  | zero =>
    intro c0 c c1 h ha
    simp [reach] at h
    subst h
    simp [reach, ha]
  | succ n ih =>
    intro c0 c c1 h ha
    obtain ⟨c2, h1, h2⟩ := reach_succ lib w url deadline n c0 c h
    have h3 := ih c2 c c1 h2 ha
    show (match attempt lib w url deadline c0 with
      | .next c1 => reach lib w url deadline (n + 1) c1
      | .stop _ => none) = some c1
    rw [h1]
    exact h3

theorem reach_unsnoc {M : Type} (lib : Lib M) (w : World) (url : String) (deadline : Int)
    (n : Nat) : ∀ (c0 c1 : Cfg), reach lib w url deadline (n + 1) c0 = some c1 →
      ∃ c, reach lib w url deadline n c0 = some c ∧ attempt lib w url deadline c = .next c1 := by
  induction n with
  | zero =>
    intro c0 c1 h
    obtain ⟨c2, h1, h2⟩ := reach_succ lib w url deadline 0 c0 c1 h
    simp [reach] at h2
    subst h2
    exact ⟨c0, rfl, h1⟩
  | succ n ih =>
    intro c0 c1 h
    obtain ⟨c2, h1, h2⟩ := reach_succ lib w url deadline (n + 1) c0 c1 h
    obtain ⟨c, h3, h4⟩ := ih c2 c1 h2
    refine ⟨c, ?_, h4⟩
    show (match attempt lib w url deadline c0 with
      | .next c1 => reach lib w url deadline n c1
      | .stop _ => none) = some c
    rw [h1]
    exact h3

theorem attempt_next_inv {M : Type} (lib : Lib M) (w : World) (url : String)
    (deadline : Int) (c c1 : Cfg) (h : attempt lib w url deadline c = .next c1) :
    ∃ sleep, backoff c.i = some sleep ∧
      ¬ deadline < c.now + (w.elapsed c.probes : Int) + sleep ∧
      c1 = ⟨wrap64 (c.i + 1), c.now + (w.elapsed c.probes : Int) + max sleep 0,
        c.probes + 1, c.sleeps ++ [sleep]⟩ := by
  by_cases h404 : 0 < lib.StatusCodes (probeMetrics lib w url c.probes) "404"
  · rw [attempt_404 lib w url deadline c h404] at h
    exact absurd h (by simp)
  · by_cases hs : lib.Success (probeMetrics lib w url c.probes) = 1
    · rw [attempt_ready lib w url deadline c h404 hs] at h
      exact absurd h (by simp)
    · by_cases hi : c.i < 0
      · rw [attempt_negativeShift lib w url deadline c h404 hs hi] at h
        exact absurd h (by simp)
      · obtain ⟨sleep, hb⟩ := backoff_isSome c.i (by omega)
        rw [attempt_backoff lib w url deadline c sleep h404 hs hb] at h
        by_cases hd : deadline < c.now + (w.elapsed c.probes : Int) + sleep
        · simp [hd] at h
        · simp only [hd, if_false, Step.next.injEq] at h
          exact ⟨sleep, hb, hd, h.symm⟩

/-- Up to 2^63 iterations the loop counter is the number of completed
iterations, and the sleeps made so far are the capped backoffs of lines 83-86
for the attempts 0, 1, 2, ... in order. -/
theorem reach_counter_and_sleeps {M : Type} (lib : Lib M) (w : World) (url : String)
    (deadline t0 : Int) (n : Nat) :
    ∀ c : Cfg, reach lib w url deadline n ⟨0, t0, 0, []⟩ = some c →
      (n : Int) < 9223372036854775808 →
      c.i = (n : Int) ∧ c.probes = n ∧
        c.sleeps.map some = (List.range n).map (fun (k : Nat) => backoff (k : Int)) := by
  induction n with
  | zero =>
    intro c h _
    simp [reach] at h
    subst h
    simp
  | succ n ih =>
    intro c1 h hn
    obtain ⟨c, h1, h2⟩ := reach_unsnoc lib w url deadline n _ c1 h
    obtain ⟨hi, hp, hsl⟩ := ih c h1 (by omega)
    obtain ⟨sleep, hb, _, hc1⟩ := attempt_next_inv lib w url deadline c c1 h2
    subst hc1
    refine ⟨?_, ?_, ?_⟩
    · show wrap64 (c.i + 1) = ((n + 1 : Nat) : Int)
      rw [wrap64_id (c.i + 1) (by omega) (by omega)]
      omega
    · show c.probes + 1 = n + 1
      omega
    · show (c.sleeps ++ [sleep]).map some = _
      rw [List.range_succ, List.map_append, List.map_append, hsl]
      rw [hi] at hb
      simp [hb]

/-- In a run that has completed at most 35 iterations, sleep number `k` is
min(2^k * 500ms, 10s) for every `k`. -/
theorem reach_sleeps_le_35 {M : Type} (lib : Lib M) (w : World) (url : String)
    (deadline t0 : Int) (n : Nat) (c : Cfg) (hn : n ≤ 35)
    (h : reach lib w url deadline n ⟨0, t0, 0, []⟩ = some c) :
    c.sleeps = (List.range n).map
      (fun k => min ((2 : Int) ^ k * (500 * Millisecond)) maxSleep) := by
  obtain ⟨_, _, hsl⟩ := reach_counter_and_sleeps lib w url deadline t0 n c h (by omega)
  have e : (List.range n).map (fun (k : Nat) => backoff (k : Int)) =
      ((List.range n).map
        (fun k => min ((2 : Int) ^ k * (500 * Millisecond)) maxSleep)).map some := by
    rw [List.map_map]
    apply List.map_congr_left
    intro k hk
    have hk2 : k < n := List.mem_range.mp hk
    rw [backoff_eq_min (k : Int) (by omega) (by omega)]
    simp
  rw [e] at hsl
  exact List.map_injective_iff.mpr (Option.some_injective _) hsl

theorem reach_now_lower {M : Type} (lib : Lib M) (w : World) (url : String)
    (deadline t0 : Int) (hel : ∀ k, 0 < w.elapsed k) (n : Nat) :
    ∀ c : Cfg, reach lib w url deadline n ⟨0, t0, 0, []⟩ = some c → t0 + (n : Int) ≤ c.now := by
  induction n with
  | zero =>
    intro c h
    simp [reach] at h
    subst h
    simp
  | succ n ih =>
    intro c1 h
    obtain ⟨c, h1, h2⟩ := reach_unsnoc lib w url deadline n _ c1 h
    have hnow := ih c h1
    obtain ⟨sleep, _, _, hc1⟩ := attempt_next_inv lib w url deadline c c1 h2
    subst hc1
    show t0 + ((n + 1 : Nat) : Int) ≤ c.now + (w.elapsed c.probes : Int) + max sleep 0
    have h3 := hel c.probes
    have h4 : (0 : Int) ≤ max sleep 0 := le_max_right _ _
    omega

theorem loop_progress {M : Type} (lib : Lib M) (w : World) (url : String) (maxWait : Int)
    (h404 : ∀ k, lib.StatusCodes (probeMetrics lib w url k) "404" = 0)
    (hs : ∀ k, lib.Success (probeMetrics lib w url k) ≠ 1)
    (n : Nat) (hn : (n : Int) < 9223372036854775808) :
    (∃ fuel r t, loop lib w url (w.start + maxWait) fuel ⟨0, w.start, 0, []⟩ = some r ∧
        r.outcome = .notReady t ∧ r.probes ≤ n) ∨
      ∃ c, reach lib w url (w.start + maxWait) n ⟨0, w.start, 0, []⟩ = some c := by
  induction n with
  | zero => exact Or.inr ⟨_, rfl⟩
  | succ n ih =>
    rcases ih (by omega) with ⟨fuel, r, t, h1, h2, h3⟩ | ⟨c, hc⟩
    · exact Or.inl ⟨fuel, r, t, h1, h2, by omega⟩
    · obtain ⟨hi, hp, _⟩ :=
        reach_counter_and_sleeps lib w url (w.start + maxWait) w.start n c hc (by omega)
      have hno : ¬ 0 < lib.StatusCodes (probeMetrics lib w url c.probes) "404" := by
        rw [h404]; decide
      obtain ⟨sleep, hb⟩ := backoff_isSome c.i (by omega)
      have ha := attempt_backoff lib w url (w.start + maxWait) c sleep hno (hs c.probes) hb
      by_cases hd : w.start + maxWait < c.now + (w.elapsed c.probes : Int) + sleep
      · left
        simp only [hd, if_true] at ha
        refine ⟨n + 1, ⟨.notReady (c.now + (w.elapsed c.probes : Int) - w.start),
          c.probes + 1, c.sleeps⟩, _, ?_, rfl, ?_⟩
        · rw [loop_of_reach lib w url (w.start + maxWait) n _ c hc 1]
          exact loop_succ_stop lib w url (w.start + maxWait) 0 c _ ha
        · show c.probes + 1 ≤ n + 1
          omega
      · right
        simp only [hd, if_false] at ha
        exact ⟨_, reach_snoc lib w url (w.start + maxWait) n _ c _ hc ha⟩

/-- C6 (amended): for every `maxWait > 0` of the `time.Duration` range and
every target whose probes never report a 404 and never reach success ratio
1, `waitUntilReady` terminates when every probe takes time (at least one
nanosecond of the clock): after a finite number of probes, at most
max(56, maxWait in ns) + 1, it panics with the deadline error. -/
theorem waitUntilReady_ends_when_probes_take_time {M : Type} (lib : Lib M) (w : World)
    (url : String) (maxWait : Int) (hpos : 0 < maxWait)
    (hrange : maxWait < 9223372036854775808)
    (h404 : ∀ k, lib.StatusCodes (probeMetrics lib w url k) "404" = 0)
    (hs : ∀ k, lib.Success (probeMetrics lib w url k) ≠ 1)
    (hel : ∀ k, 0 < w.elapsed k) :
    ∃ fuel r t, waitUntilReady lib w url maxWait fuel = some r ∧
      r.outcome = .notReady t ∧ r.probes ≤ max 56 maxWait.toNat + 1 := by
  have hmax : maxWait ≠ 0 := by omega
  have hw : ∀ fuel, waitUntilReady lib w url maxWait fuel =
      loop lib w url (w.start + maxWait) fuel ⟨0, w.start, 0, []⟩ := by
    intro fuel
    simp [waitUntilReady, hmax]
  have hN : ((max 56 maxWait.toNat : Nat) : Int) < 9223372036854775808 := by
    rcases max_cases 56 maxWait.toNat with ⟨h1, _⟩ | ⟨h1, _⟩ <;> rw [h1] <;> omega
  rcases loop_progress lib w url maxWait h404 hs (max 56 maxWait.toNat) hN with
    ⟨fuel, r, t, h1, h2, h3⟩ | ⟨c, hc⟩
  · exact ⟨fuel, r, t, by rw [hw]; exact h1, h2, by omega⟩
  · obtain ⟨hi, hp, _⟩ := reach_counter_and_sleeps lib w url (w.start + maxWait) w.start
      (max 56 maxWait.toNat) c hc hN
    have hnow := reach_now_lower lib w url (w.start + maxWait) w.start hel
      (max 56 maxWait.toNat) c hc
    have h56 : (56 : Int) ≤ c.i := by
      rw [hi]
      have : 56 ≤ max 56 maxWait.toNat := le_max_left _ _
      omega
    have hge : maxWait ≤ ((max 56 maxWait.toNat : Nat) : Int) := by
      have : maxWait.toNat ≤ max 56 maxWait.toNat := le_max_right _ _
      omega
    have hno : ¬ 0 < lib.StatusCodes (probeMetrics lib w url c.probes) "404" := by
      rw [h404]; decide
    have ha := attempt_backoff lib w url (w.start + maxWait) c 0 hno (hs c.probes)
      (backoff_of_ge_56 c.i h56)
    have h3 := hel c.probes
    have hd : w.start + maxWait < c.now + (w.elapsed c.probes : Int) + 0 := by omega
    simp only [hd, if_true] at ha
    refine ⟨max 56 maxWait.toNat + 1, ⟨.notReady (c.now + (w.elapsed c.probes : Int) - w.start),
      c.probes + 1, c.sleeps⟩, _, ?_, rfl, ?_⟩
    · rw [hw, loop_of_reach lib w url (w.start + maxWait) _ _ c hc 1]
      exact loop_succ_stop lib w url (w.start + maxWait) 0 c _ ha
    · show c.probes + 1 ≤ max 56 maxWait.toNat + 1
      omega

theorem waitUntilReady_ends_when_probes_take_time_witness :
    ∃ (fuel : Nat) (r : Run) (t : Int),
      waitUntilReady stdLib down "http://localhost:8080/" (3600 * Second) fuel = some r ∧
        r.outcome = .notReady t ∧ r.probes ≤ max 56 (3600 * Second).toNat + 1 :=
  waitUntilReady_ends_when_probes_take_time stdLib down "http://localhost:8080/"
    (3600 * Second) (by decide) (by decide)
    (fun _ => show stdLib.StatusCodes (fetch stdLib [resp 503]).Metrics "404" = 0 by decide)
    (fun _ => show stdLib.Success (fetch stdLib [resp 503]).Metrics ≠ 1 by decide)
    (fun _ => show 0 < 1000000000 by decide)

end Loadgen
